import Mathlib

/-!
# Order store of `main.go`

A shallow embedding of the restaurant order backend in `src/main.go`.

Modelling conventions:

* Each HTTP handler is embedded from the point where it has decoded its
  request body and taken `orderLock`; the decoded body is the argument of the
  Lean function, and the handler's effect on the two package-level variables
  `orders` and `orderID` is explicit state passing over `Store`.
* Go `int` (order ids, item ids, the id counter) is `Int`, without wrap-around.
  The counter grows by one per created order and orders are never removed from
  the registry, so the registry would have to hold `2^63` orders before the
  counter could wrap.
* `float64` prices and totals are `Nat`.  Every catalog price is a non-negative
  whole number and a total only ever grows by catalog prices, one per item
  appended to the order; `float64` addition of whole numbers is exact as long as
  the sum is below `2^53`, which would take an order of more than `10^11` items.
* `OrderStatus` is a Go `string` type, so it is `String` here: the status
  handler stores whatever string the request carries.
* `map[int]Order` is an association list with at most one entry per key;
  `mapGet` is the comma-ok lookup and `mapSet` is the indexed assignment.
* What a handler writes to the `ResponseWriter` is a `Response` value.
-/

namespace OrderStore

/-! ## Data model -/

/-- The Go type `OrderStatus`, a named `string`. -/
abbrev OrderStatus := String

/-- The constant `StatusProses`. -/
def StatusProses : OrderStatus := "Diproses"

/-- The constant `StatusAntar`. -/
def StatusAntar : OrderStatus := "Diantar"

/-- The constant `StatusSelesai`. -/
def StatusSelesai : OrderStatus := "Selesai"

/-- The Go struct `MenuItem`. -/
structure MenuItem where
  ID : Int
  Name : String
  Price : Nat
  deriving DecidableEq, Repr

/-- The Go struct `Order`. -/
structure Order where
  ID : Int
  Items : List MenuItem
  Total : Nat
  Status : OrderStatus
  deriving DecidableEq, Repr

/-- The package-level slice `menu`. -/
def menu : List MenuItem :=
  [ { ID := 1, Name := "Nasi Goreng", Price := 25000 },
    { ID := 2, Name := "Mie Goreng", Price := 20000 },
    { ID := 3, Name := "Ayam Bakar", Price := 30000 } ]

/-- Comma-ok lookup `v, exists := m[k]` on a `map[int]Order`. -/
def mapGet : List (Int × Order) → Int → Option Order
  | [], _ => none
  | (k', v) :: rest, k => if k' = k then some v else mapGet rest k

/-- Indexed assignment `m[k] = v` on a `map[int]Order`: overwrite the entry of
`k` when there is one, add an entry otherwise. -/
def mapSet : List (Int × Order) → Int → Order → List (Int × Order)
  | [], k, v => [(k, v)]
  | (k', v') :: rest, k, v =>
    if k' = k then (k, v) :: rest else (k', v') :: mapSet rest k v

/-- The package-level variables `orders` and `orderID`, guarded together by
`orderLock`. -/
structure Store where
  orders : List (Int × Order)
  orderID : Int
  deriving DecidableEq, Repr

/-- The store at process start: `orders = make(map[int]Order)`, `orderID = 1`. -/
def Store.init : Store := { orders := [], orderID := 1 }

/-- What a handler writes to its `http.ResponseWriter`. -/
inductive Response where
  /-- A JSON-encoded `Order` (status 200). -/
  | order (o : Order)
  /-- A JSON-encoded `map[string]string` with the single key `message`. -/
  | message (m : String)
  /-- A JSON-encoded `[]Order`. -/
  | orders (os : List Order)
  /-- A call of `http.Error(w, msg, code)`. -/
  | error (msg : String) (code : Nat)
  deriving DecidableEq, Repr

/-- The constant `http.StatusNotFound`. -/
def StatusNotFound : Nat := 404

/-- The constant `http.StatusBadRequest`. -/
def StatusBadRequest : Nat := 400

/-- The failure written when the order id is not a key of `orders`. -/
def NotFound : Response := .error "Pesanan tidak ditemukan" StatusNotFound

/-- The failure written by `payOrder` when the status is not `StatusProses`. -/
def InvalidState : Response :=
  .error "Pesanan sudah dibayar atau sedang diproses" StatusBadRequest

/-- The confirmation written by `payOrder` on success. -/
def PaymentConfirmed : Response :=
  .message "Pembayaran berhasil. Pesanan sedang diantar."

/-! ## The handlers -/

/-- The inner loop `for _, menuItem := range menu { if menuItem.ID == itemID {...} }`
over the accumulators (item slice, total). -/
def menuLoop (itemID : Int) : List MenuItem → List MenuItem × Nat → List MenuItem × Nat
  | [], acc => acc
  | menuItem :: rest, acc =>
    if menuItem.ID = itemID then
      menuLoop itemID rest (acc.1 ++ [menuItem], acc.2 + menuItem.Price)
    else
      menuLoop itemID rest acc

/-- The outer loop `for _, itemID := range items { ... }` of `createOrder` and
`addItemToOrder`, over the accumulators (item slice, total). -/
def itemsLoop : List Int → List MenuItem × Nat → List MenuItem × Nat
  | [], acc => acc
  | itemID :: rest, acc => itemsLoop rest (menuLoop itemID menu acc)

/-- The handler `createOrder`, lines 73-98. -/
def createOrder (s : Store) (items : List Int) : Store × Response :=
  let acc := itemsLoop items ([], 0)
  let newOrder : Order :=
    { ID := s.orderID, Items := acc.1, Total := acc.2, Status := StatusProses }
  ({ orders := mapSet s.orders s.orderID newOrder, orderID := s.orderID + 1 },
   .order newOrder)

/-- The handler `addItemToOrder`, lines 118-139. -/
def addItemToOrder (s : Store) (OrderID : Int) (Items : List Int) : Store × Response :=
  match mapGet s.orders OrderID with
  | none => (s, .error "Pesanan tidak ditemukan" StatusNotFound)
  | some order =>
    let acc := itemsLoop Items (order.Items, order.Total)
    let order : Order := { order with Items := acc.1, Total := acc.2 }
    ({ s with orders := mapSet s.orders OrderID order }, .order order)

/-- The handler `payOrder`, lines 158-178. -/
def payOrder (s : Store) (OrderID : Int) : Store × Response :=
  match mapGet s.orders OrderID with
  | none => (s, .error "Pesanan tidak ditemukan" StatusNotFound)
  | some order =>
    if order.Status ≠ StatusProses then
      (s, .error "Pesanan sudah dibayar atau sedang diproses" StatusBadRequest)
    else
      let order : Order := { order with Status := StatusAntar }
      ({ s with orders := mapSet s.orders OrderID order },
       .message "Pembayaran berhasil. Pesanan sedang diantar.")

/-- The handler `getOrderHistory`, lines 185-193.  Go leaves the iteration order
of a map unspecified; the entries are visited here in list order. -/
def getOrderHistory (s : Store) : Store × Response :=
  (s, .orders (s.orders.map Prod.snd))

/-- The handler `updateOrderStatus`, lines 213-226. -/
def updateOrderStatus (s : Store) (OrderID : Int) (Status : OrderStatus) : Store × Response :=
  match mapGet s.orders OrderID with
  | none => (s, .error "Pesanan tidak ditemukan" StatusNotFound)
  | some order =>
    let order : Order := { order with Status := Status }
    ({ s with orders := mapSet s.orders OrderID order }, .order order)

/-! ## Call sequences -/

/-- One call of a store operation with its decoded arguments. -/
inductive Op where
  | create (items : List Int)
  | addItems (OrderID : Int) (Items : List Int)
  | pay (OrderID : Int)
  | setStatus (OrderID : Int) (Status : OrderStatus)
  | list
  deriving DecidableEq, Repr

/-- Serve one call. -/
def step (s : Store) : Op → Store × Response
  | .create items => createOrder s items
  | .addItems o items => addItemToOrder s o items
  | .pay o => payOrder s o
  | .setStatus o st => updateOrderStatus s o st
  | .list => getOrderHistory s

/-- The store after serving a sequence of calls one after the other (the calls
are serialised by `orderLock`). -/
def run (s : Store) : List Op → Store
  | [] => s
  | op :: rest => run (step s op).1 rest

/-- Number of `create` calls in a sequence. -/
def countCreates : List Op → Nat
  | [] => 0
  | .create _ :: rest => countCreates rest + 1
  | _ :: rest => countCreates rest

/-! ## Specification-side definitions -/

/-- The catalog operation `resolve` as the specification words it: for each
input id, in input order, every catalog entry whose id matches. -/
def resolve (ids : List Int) : List MenuItem :=
  ids.flatMap (fun id => menu.filter (fun m => m.ID = id))

/-- Sum of the prices of a sequence of items. -/
def sumPrices (items : List MenuItem) : Nat :=
  (items.map MenuItem.Price).sum

/-- Whether an id is the id of some catalog entry. -/
def inCatalog (id : Int) : Bool :=
  menu.any (fun m => m.ID = id)

/-- The price the catalog lists for an id (`0` for an id it does not list). -/
def catalogPrice (id : Int) : Nat :=
  match menu.find? (fun m => m.ID = id) with
  | some m => m.Price
  | none => 0

/-- Whether a status is one of the three declared constants. -/
def isEnumerated (st : OrderStatus) : Bool :=
  st == StatusProses || st == StatusAntar || st == StatusSelesai

/-- Whether every `setStatus` call of a sequence carries one of the three
declared constants. -/
def statusArgsEnumerated : List Op → Bool
  | [] => true
  | .setStatus _ st :: rest => isEnumerated st && statusArgsEnumerated rest
  | _ :: rest => statusArgsEnumerated rest

/-- The keys `1, ..., n` in increasing order. -/
def firstKeys (n : Nat) : List Int :=
  (List.range n).map (fun (i : Nat) => (i : Int) + 1)

/-- Well-formedness of a store in which `n` orders were created: the counter is
`n + 1`, the registry keys are `1, ..., n`, and every order is stored under its
own id. -/
def WellFormed (s : Store) (n : Nat) : Prop :=
  s.orderID = (n : Int) + 1 ∧
  s.orders.map Prod.fst = firstKeys n ∧
  ∀ p ∈ s.orders, p.2.ID = p.1

/-! ## Lemmas on the registry -/

theorem mapGet_mapSet (m : List (Int × Order)) (k k' : Int) (v : Order) :
    mapGet (mapSet m k v) k' = if k = k' then some v else mapGet m k' := by
  induction m with
  | nil => simp [mapSet, mapGet]
  | cons p rest ih =>
    obtain ⟨a, b⟩ := p
    by_cases h : a = k
    · subst h
      by_cases h' : a = k' <;> simp [mapSet, mapGet, h']
    · by_cases h' : a = k'
      · subst h'
        have hk : ¬ k = a := fun e => h e.symm
        simp [mapSet, mapGet, h, hk]
      · simp [mapSet, mapGet, h, h', ih]

theorem mapGet_mapSet_self (m : List (Int × Order)) (k : Int) (v : Order) :
    mapGet (mapSet m k v) k = some v := by
  simp [mapGet_mapSet]

theorem mapSet_mapSet (m : List (Int × Order)) (k : Int) (v w : Order) :
    mapSet (mapSet m k v) k w = mapSet m k w := by
  induction m with
  | nil => simp [mapSet]
  | cons p rest ih =>
    obtain ⟨a, b⟩ := p
    by_cases h : a = k
    · simp [mapSet, h]
    · simp [mapSet, h, ih]

theorem mem_of_mapGet {m : List (Int × Order)} {k : Int} {v : Order}
    (h : mapGet m k = some v) : (k, v) ∈ m := by
  induction m with
  | nil => simp [mapGet] at h
  | cons p rest ih =>
    obtain ⟨a, b⟩ := p
    by_cases hk : a = k
    · subst hk
      simp [mapGet] at h
      simp [h]
    · simp [mapGet, hk] at h
      exact List.mem_cons_of_mem _ (ih h)

theorem mem_mapSet {m : List (Int × Order)} {k : Int} {v : Order} {p : Int × Order}
    (h : p ∈ mapSet m k v) : p = (k, v) ∨ p ∈ m := by
  induction m with
  | nil =>
    simp [mapSet] at h
    exact Or.inl h
  | cons q rest ih =>
    obtain ⟨a, b⟩ := q
    by_cases hk : a = k
    · simp [mapSet, hk] at h
      rcases h with h | h
      · exact Or.inl h
      · exact Or.inr (List.mem_cons_of_mem _ h)
    · simp [mapSet, hk] at h
      rcases h with h | h
      · exact Or.inr (by simp [h])
      · rcases ih h with h' | h'
        · exact Or.inl h'
        · exact Or.inr (List.mem_cons_of_mem _ h')

/-! ## Lemmas on the resolution loops -/

theorem sumPrices_append (xs ys : List MenuItem) :
    sumPrices (xs ++ ys) = sumPrices xs + sumPrices ys := by
  simp [sumPrices]

theorem menuLoop_eq (itemID : Int) (l : List MenuItem) (acc : List MenuItem × Nat) :
    menuLoop itemID l acc =
      (acc.1 ++ l.filter (fun m => m.ID = itemID),
       acc.2 + sumPrices (l.filter (fun m => m.ID = itemID))) := by
  induction l generalizing acc with
  | nil => simp [menuLoop, sumPrices]
  | cons m rest ih =>
    by_cases h : m.ID = itemID
    · simp [menuLoop, h, ih, sumPrices, Nat.add_assoc]
    · simp [menuLoop, h, ih]

theorem resolve_cons (id : Int) (ids : List Int) :
    resolve (id :: ids) = menu.filter (fun m => m.ID = id) ++ resolve ids := by
  simp [resolve]

theorem resolve_append (xs ys : List Int) :
    resolve (xs ++ ys) = resolve xs ++ resolve ys := by
  simp [resolve]

theorem itemsLoop_eq (ids : List Int) (acc : List MenuItem × Nat) :
    itemsLoop ids acc = (acc.1 ++ resolve ids, acc.2 + sumPrices (resolve ids)) := by
  induction ids generalizing acc with
  | nil => simp [itemsLoop, resolve, sumPrices]
  | cons id rest ih =>
    simp [itemsLoop, ih, menuLoop_eq, resolve_cons, sumPrices_append, Nat.add_assoc]

/-- What one id resolves to in the built-in catalog. -/
theorem filter_menu (id : Int) :
    menu.filter (fun m => m.ID = id) =
      if id = 1 then [{ ID := 1, Name := "Nasi Goreng", Price := 25000 }]
      else if id = 2 then [{ ID := 2, Name := "Mie Goreng", Price := 20000 }]
      else if id = 3 then [{ ID := 3, Name := "Ayam Bakar", Price := 30000 }]
      else [] := by
  by_cases h1 : id = 1
  · subst h1; rfl
  by_cases h2 : id = 2
  · subst h2; rfl
  by_cases h3 : id = 3
  · subst h3; rfl
  have e1 : ¬ (1 : Int) = id := fun e => h1 e.symm
  have e2 : ¬ (2 : Int) = id := fun e => h2 e.symm
  have e3 : ¬ (3 : Int) = id := fun e => h3 e.symm
  simp [menu, h1, h2, h3, e1, e2, e3]

theorem inCatalog_iff (id : Int) : inCatalog id = true ↔ id = 1 ∨ id = 2 ∨ id = 3 := by
  simp only [inCatalog, menu, List.any_cons, List.any_nil, Bool.or_false, Bool.or_eq_true,
    decide_eq_true_eq]
  omega

theorem sumPrices_filter_menu (id : Int) :
    sumPrices (menu.filter (fun m => m.ID = id)) =
      if inCatalog id then catalogPrice id else 0 := by
  by_cases h1 : id = 1
  · subst h1; rfl
  by_cases h2 : id = 2
  · subst h2; rfl
  by_cases h3 : id = 3
  · subst h3; rfl
  have hc : ¬ inCatalog id = true := by
    rw [inCatalog_iff]; simp [h1, h2, h3]
  rw [filter_menu]
  simp [h1, h2, h3, hc, sumPrices]

theorem sumPrices_resolve (ids : List Int) :
    sumPrices (resolve ids) = ((ids.filter inCatalog).map catalogPrice).sum := by
  induction ids with
  | nil => simp [resolve, sumPrices]
  | cons id rest ih =>
    rw [resolve_cons, sumPrices_append, ih, sumPrices_filter_menu]
    by_cases h : inCatalog id = true
    · simp [h, List.filter_cons]
    · simp [h, List.filter_cons]

/-! ## The cached total -/

theorem createOrder_eq (s : Store) (ids : List Int) :
    createOrder s ids =
      ({ orders := mapSet s.orders s.orderID
            { ID := s.orderID, Items := resolve ids, Total := sumPrices (resolve ids),
              Status := StatusProses },
         orderID := s.orderID + 1 },
       .order { ID := s.orderID, Items := resolve ids, Total := sumPrices (resolve ids),
                Status := StatusProses }) := by
  simp [createOrder, itemsLoop_eq]

theorem addItemToOrder_eq (s : Store) (k : Int) (ids : List Int) (before : Order)
    (h : mapGet s.orders k = some before) :
    addItemToOrder s k ids =
      (⟨mapSet s.orders k
          ⟨before.ID, before.Items ++ resolve ids, before.Total + sumPrices (resolve ids),
            before.Status⟩,
        s.orderID⟩,
       .order ⟨before.ID, before.Items ++ resolve ids, before.Total + sumPrices (resolve ids),
          before.Status⟩) := by
  simp [addItemToOrder, h, itemsLoop_eq]

theorem step_total (s : Store) (op : Op)
    (hs : ∀ p ∈ s.orders, p.2.Total = sumPrices p.2.Items) :
    ∀ p ∈ (step s op).1.orders, p.2.Total = sumPrices p.2.Items := by
  intro p hp
  cases op with
  | create items =>
    simp only [step, createOrder_eq] at hp
    rcases mem_mapSet hp with h | h
    · subst h; simp
    · exact hs p h
  | addItems k items =>
    cases hk : mapGet s.orders k with
    | none =>
      simp only [step, addItemToOrder, hk] at hp
      exact hs p hp
    | some before =>
      simp only [step, addItemToOrder_eq s k items before hk] at hp
      rcases mem_mapSet hp with h | h
      · subst h
        have hb := hs _ (mem_of_mapGet hk)
        simp only at hb
        simp [sumPrices_append, hb]
      · exact hs p h
  | pay k =>
    cases hk : mapGet s.orders k with
    | none =>
      simp only [step, payOrder, hk] at hp
      exact hs p hp
    | some before =>
      by_cases hst : before.Status = StatusProses
      · simp only [step, payOrder, hk, hst, ne_eq, not_true_eq_false, if_false] at hp
        rcases mem_mapSet hp with h | h
        · subst h
          simpa using hs _ (mem_of_mapGet hk)
        · exact hs p h
      · simp only [step, payOrder, hk, hst, ne_eq, not_false_eq_true, if_true] at hp
        exact hs p hp
  | setStatus k st =>
    cases hk : mapGet s.orders k with
    | none =>
      simp only [step, updateOrderStatus, hk] at hp
      exact hs p hp
    | some before =>
      simp only [step, updateOrderStatus, hk] at hp
      rcases mem_mapSet hp with h | h
      · subst h
        simpa using hs _ (mem_of_mapGet hk)
      · exact hs p h
  | list =>
    simp only [step, getOrderHistory] at hp
    exact hs p hp

theorem run_total (ops : List Op) (s : Store)
    (hs : ∀ p ∈ s.orders, p.2.Total = sumPrices p.2.Items) :
    ∀ p ∈ (run s ops).orders, p.2.Total = sumPrices p.2.Items := by
  induction ops generalizing s with
  | nil => simpa [run] using hs
  | cons op rest ih =>
    simp only [run]
    exact ih _ (step_total s op hs)

/-- C1: in every store reached from the initial store by a finite sequence of
CreateOrder, AddItems, PayOrder, SetStatus and ListOrders calls, every order in
the registry has a total equal to the sum of the prices of its items. -/
theorem total_invariant (ops : List Op) (p : Int × Order)
    (hp : p ∈ (run Store.init ops).orders) :
    p.2.Total = sumPrices p.2.Items :=
  run_total ops Store.init (by simp [Store.init]) p hp

/-- C1 at a concrete call sequence: order 1 after a creation, a payment, an
addition with a repeated and an unknown id, a status change and a listing. -/
theorem total_invariant_witness :
    ((1 : Int),
      ({ ID := 1,
         Items := [{ ID := 1, Name := "Nasi Goreng", Price := 25000 },
                   { ID := 3, Name := "Ayam Bakar", Price := 30000 },
                   { ID := 3, Name := "Ayam Bakar", Price := 30000 }],
         Total := 85000, Status := "Selesai" } : Order)) ∈
        (run Store.init
          [.create [1], .pay 1, .addItems 1 [3, 7, 3], .setStatus 1 "Selesai", .list]).orders ∧
      (85000 : Nat) =
        sumPrices [{ ID := 1, Name := "Nasi Goreng", Price := 25000 },
                   { ID := 3, Name := "Ayam Bakar", Price := 30000 },
                   { ID := 3, Name := "Ayam Bakar", Price := 30000 }] :=
  ⟨by decide,
   total_invariant
     [.create [1], .pay 1, .addItems 1 [3, 7, 3], .setStatus 1 "Selesai", .list]
     ((1 : Int),
      ({ ID := 1,
         Items := [{ ID := 1, Name := "Nasi Goreng", Price := 25000 },
                   { ID := 3, Name := "Ayam Bakar", Price := 30000 },
                   { ID := 3, Name := "Ayam Bakar", Price := 30000 }],
         Total := 85000, Status := "Selesai" } : Order))
     (by decide)⟩

/-- C2: for every sequence of item ids, CreateOrder returns an order whose total
is the sum, over the occurrences in the input of ids present in the catalog, of
the catalog price of that id; an id that is not in the catalog changes nothing
in the returned order; and on the fresh store CreateOrder([1,2]) returns order 1
with items Nasi Goreng and Mie Goreng, total 45000 and status Diproses. -/
theorem createOrder_total :
    (∀ (s : Store) (ids : List Int), ∃ o : Order,
        (createOrder s ids).2 = .order o ∧
        o.Total = ((ids.filter inCatalog).map catalogPrice).sum) ∧
    (∀ (s : Store) (pre post : List Int) (id : Int), inCatalog id = false →
        (createOrder s (pre ++ id :: post)).2 = (createOrder s (pre ++ post)).2) ∧
    (createOrder Store.init [1, 2]).2 =
      .order { ID := 1,
               Items := [{ ID := 1, Name := "Nasi Goreng", Price := 25000 },
                         { ID := 2, Name := "Mie Goreng", Price := 20000 }],
               Total := 45000, Status := "Diproses" } := by
  refine ⟨?_, ?_, by decide⟩
  · intro s ids
    exact ⟨_, by rw [createOrder_eq], sumPrices_resolve ids⟩
  · intro s pre post id hid
    have hf : menu.filter (fun m => m.ID = id) = [] := by
      have hn : ¬ (id = 1 ∨ id = 2 ∨ id = 3) := by
        rw [← inCatalog_iff]; simp [hid]
      rw [filter_menu]
      simp only [not_or] at hn
      simp [hn.1, hn.2.1, hn.2.2]
    simp only [createOrder_eq, resolve_append, resolve_cons, hf, List.nil_append]

/-- C2 at concrete inputs: the unknown id 7 between the known ids 1 and 2. -/
theorem createOrder_total_witness :
    inCatalog 7 = false ∧
      (createOrder Store.init ([1] ++ 7 :: [2])).2 = (createOrder Store.init ([1] ++ [2])).2 :=
  ⟨by decide, createOrder_total.2.1 Store.init [1] [2] 7 (by decide)⟩

/-- C3: for every store, every order id present in the registry (whatever the
status of its order) and every sequence of item ids, AddItems returns an order
whose total is the previous total plus the sum of the prices of the resolved
items and whose items are the previous items followed by the resolved items
(so the previous items are a prefix), and that order is the one stored under
the id afterwards. -/
theorem addItems_additive (s : Store) (o : Int) (ids : List Int) (before : Order)
    (h : mapGet s.orders o = some before) :
    ∃ after : Order,
      (addItemToOrder s o ids).2 = .order after ∧
      after.Total = before.Total + sumPrices (resolve ids) ∧
      after.Items = before.Items ++ resolve ids ∧
      before.Items <+: after.Items ∧
      mapGet (addItemToOrder s o ids).1.orders o = some after := by
  rw [addItemToOrder_eq s o ids before h]
  exact ⟨_, rfl, rfl, rfl, List.prefix_append _ _, mapGet_mapSet_self _ _ _⟩

/-- C3 at a concrete store: items are added to order 1 after it was marked
Selesai. -/
theorem addItems_additive_witness :
    ∃ after : Order,
      (addItemToOrder (run Store.init [.create [1, 2], .setStatus 1 "Selesai"]) 1 [3, 7, 3]).2
        = .order after ∧
      after.Total = 45000 + sumPrices (resolve [3, 7, 3]) ∧
      after.Items =
        [{ ID := 1, Name := "Nasi Goreng", Price := 25000 },
         { ID := 2, Name := "Mie Goreng", Price := 20000 }] ++ resolve [3, 7, 3] ∧
      [{ ID := 1, Name := "Nasi Goreng", Price := 25000 },
         { ID := 2, Name := "Mie Goreng", Price := 20000 }] <+: after.Items ∧
      mapGet (addItemToOrder (run Store.init [.create [1, 2], .setStatus 1 "Selesai"])
        1 [3, 7, 3]).1.orders 1 = some after :=
  addItems_additive (run Store.init [.create [1, 2], .setStatus 1 "Selesai"]) 1 [3, 7, 3]
    { ID := 1,
      Items := [{ ID := 1, Name := "Nasi Goreng", Price := 25000 },
                { ID := 2, Name := "Mie Goreng", Price := 20000 }],
      Total := 45000, Status := "Selesai" } (by decide)

/-! ## Payment and status changes -/

theorem payOrder_proses (s : Store) (k : Int) (o : Order)
    (h : mapGet s.orders k = some o) (hst : o.Status = StatusProses) :
    payOrder s k =
      (⟨mapSet s.orders k ⟨o.ID, o.Items, o.Total, StatusAntar⟩, s.orderID⟩,
       PaymentConfirmed) := by
  simp [payOrder, h, hst, PaymentConfirmed]

theorem payOrder_other (s : Store) (k : Int) (o : Order)
    (h : mapGet s.orders k = some o) (hst : o.Status ≠ StatusProses) :
    payOrder s k = (s, InvalidState) := by
  simp [payOrder, h, hst, InvalidState]

theorem payOrder_absent (s : Store) (k : Int) (h : mapGet s.orders k = none) :
    payOrder s k = (s, NotFound) := by
  simp [payOrder, h, NotFound]

theorem addItemToOrder_absent (s : Store) (k : Int) (ids : List Int)
    (h : mapGet s.orders k = none) : addItemToOrder s k ids = (s, NotFound) := by
  simp [addItemToOrder, h, NotFound]

theorem updateOrderStatus_absent (s : Store) (k : Int) (st : OrderStatus)
    (h : mapGet s.orders k = none) : updateOrderStatus s k st = (s, NotFound) := by
  simp [updateOrderStatus, h, NotFound]

theorem updateOrderStatus_eq (s : Store) (k : Int) (st : OrderStatus) (o : Order)
    (h : mapGet s.orders k = some o) :
    updateOrderStatus s k st =
      (⟨mapSet s.orders k ⟨o.ID, o.Items, o.Total, st⟩, s.orderID⟩,
       .order ⟨o.ID, o.Items, o.Total, st⟩) := by
  simp [updateOrderStatus, h]

/-- C4: PayOrder on an order present in the registry succeeds if and only if the
status of the order is Diproses; on success the stored order has status Diantar
(its other fields kept) and the confirmation is returned; with any other status
the call fails with InvalidState. -/
theorem payOrder_guard (s : Store) (k : Int) (o : Order)
    (h : mapGet s.orders k = some o) :
    ((payOrder s k).2 = PaymentConfirmed ↔ o.Status = StatusProses) ∧
    (o.Status = StatusProses →
      (payOrder s k).2 = PaymentConfirmed ∧
      mapGet (payOrder s k).1.orders k = some { o with Status := StatusAntar }) ∧
    (o.Status ≠ StatusProses → (payOrder s k).2 = InvalidState) := by
  by_cases hst : o.Status = StatusProses
  · rw [payOrder_proses s k o h hst]
    simp [hst, mapGet_mapSet_self]
  · rw [payOrder_other s k o h hst]
    simp [hst, InvalidState, PaymentConfirmed]

/-- C4 at a concrete store: paying the freshly created order 1. -/
theorem payOrder_guard_witness :
    (payOrder (createOrder Store.init [1, 2]).1 1).2 = PaymentConfirmed ∧
    mapGet (payOrder (createOrder Store.init [1, 2]).1 1).1.orders 1 =
      some { ID := 1,
             Items := [{ ID := 1, Name := "Nasi Goreng", Price := 25000 },
                       { ID := 2, Name := "Mie Goreng", Price := 20000 }],
             Total := 45000, Status := "Diantar" } :=
  (payOrder_guard (createOrder Store.init [1, 2]).1 1
    { ID := 1,
      Items := [{ ID := 1, Name := "Nasi Goreng", Price := 25000 },
                { ID := 2, Name := "Mie Goreng", Price := 20000 }],
      Total := 45000, Status := "Diproses" } (by decide)).2.1 (by decide)

/-- C5: for every store and every order with status Diproses, the first PayOrder
on it succeeds and a second PayOrder on the same order fails with
InvalidState. -/
theorem payOrder_once (s : Store) (k : Int) (o : Order)
    (h : mapGet s.orders k = some o) (hst : o.Status = StatusProses) :
    (payOrder s k).2 = PaymentConfirmed ∧
    (payOrder (payOrder s k).1 k).2 = InvalidState := by
  rw [payOrder_proses s k o h hst]
  have hne : (⟨o.ID, o.Items, o.Total, StatusAntar⟩ : Order).Status ≠ StatusProses := by
    show StatusAntar ≠ StatusProses
    decide
  refine ⟨rfl, ?_⟩
  rw [payOrder_other _ k ⟨o.ID, o.Items, o.Total, StatusAntar⟩ (mapGet_mapSet_self _ _ _) hne]

/-- C5 at the example scenario: PayOrder(1) twice after CreateOrder([1,2]). -/
theorem payOrder_once_witness :
    (payOrder (createOrder Store.init [1, 2]).1 1).2 = PaymentConfirmed ∧
    (payOrder (payOrder (createOrder Store.init [1, 2]).1 1).1 1).2 = InvalidState :=
  payOrder_once (createOrder Store.init [1, 2]).1 1
    { ID := 1,
      Items := [{ ID := 1, Name := "Nasi Goreng", Price := 25000 },
                { ID := 2, Name := "Mie Goreng", Price := 20000 }],
      Total := 45000, Status := "Diproses" } (by decide) (by decide)

/-- C6: for every store, every order id present in the registry with any
current status, and every status value, SetStatus succeeds, the returned
snapshot and the stored order both carry the supplied status (the other fields
kept), and making the same call a second time gives the same store and the
same returned snapshot as making it once. -/
theorem setStatus_idempotent (s : Store) (k : Int) (o : Order) (st : OrderStatus)
    (h : mapGet s.orders k = some o) :
    (updateOrderStatus s k st).2 = .order { o with Status := st } ∧
    mapGet (updateOrderStatus s k st).1.orders k = some { o with Status := st } ∧
    updateOrderStatus (updateOrderStatus s k st).1 k st = updateOrderStatus s k st := by
  rw [updateOrderStatus_eq s k st o h]
  refine ⟨rfl, mapGet_mapSet_self _ _ _, ?_⟩
  rw [updateOrderStatus_eq _ k st ⟨o.ID, o.Items, o.Total, st⟩ (mapGet_mapSet_self _ _ _)]
  simp [mapSet_mapSet]

/-- C6 at a backward move: order 1 is Selesai and is set back to Diproses. -/
theorem setStatus_idempotent_witness :
    (updateOrderStatus (run Store.init [.create [1, 2], .setStatus 1 "Selesai"]) 1
        "Diproses").2 =
      .order { ID := 1,
               Items := [{ ID := 1, Name := "Nasi Goreng", Price := 25000 },
                         { ID := 2, Name := "Mie Goreng", Price := 20000 }],
               Total := 45000, Status := "Diproses" } ∧
    mapGet (updateOrderStatus (run Store.init [.create [1, 2], .setStatus 1 "Selesai"]) 1
        "Diproses").1.orders 1 =
      some { ID := 1,
             Items := [{ ID := 1, Name := "Nasi Goreng", Price := 25000 },
                       { ID := 2, Name := "Mie Goreng", Price := 20000 }],
             Total := 45000, Status := "Diproses" } ∧
    updateOrderStatus
        (updateOrderStatus (run Store.init [.create [1, 2], .setStatus 1 "Selesai"]) 1
          "Diproses").1 1 "Diproses" =
      updateOrderStatus (run Store.init [.create [1, 2], .setStatus 1 "Selesai"]) 1
        "Diproses" :=
  setStatus_idempotent (run Store.init [.create [1, 2], .setStatus 1 "Selesai"]) 1
    { ID := 1,
      Items := [{ ID := 1, Name := "Nasi Goreng", Price := 25000 },
                { ID := 2, Name := "Mie Goreng", Price := 20000 }],
      Total := 45000, Status := "Selesai" } "Diproses" (by decide)

/-- C7: AddItems, PayOrder and SetStatus each fail with NotFound when the order
id is absent from the registry, and AddItems and SetStatus fail with NotFound
only then. -/
theorem notFound_absent (s : Store) (k : Int) (ids : List Int) (st : OrderStatus) :
    (mapGet s.orders k = none →
      (addItemToOrder s k ids).2 = NotFound ∧
      (payOrder s k).2 = NotFound ∧
      (updateOrderStatus s k st).2 = NotFound) ∧
    ((addItemToOrder s k ids).2 = NotFound → mapGet s.orders k = none) ∧
    ((updateOrderStatus s k st).2 = NotFound → mapGet s.orders k = none) := by
  refine ⟨fun h => ?_, fun h => ?_, fun h => ?_⟩
  · rw [addItemToOrder_absent s k ids h, payOrder_absent s k h,
      updateOrderStatus_absent s k st h]
    exact ⟨rfl, rfl, rfl⟩
  · cases hk : mapGet s.orders k with
    | none => rfl
    | some o =>
      rw [addItemToOrder_eq s k ids o hk] at h
      simp [NotFound] at h
  · cases hk : mapGet s.orders k with
    | none => rfl
    | some o =>
      rw [updateOrderStatus_eq s k st o hk] at h
      simp [NotFound] at h

/-- C7 at the example scenario: order 99 on a store whose only order is 1. -/
theorem notFound_absent_witness :
    mapGet (createOrder Store.init [1, 2]).1.orders 99 = none ∧
    (addItemToOrder (createOrder Store.init [1, 2]).1 99 [1]).2 = NotFound ∧
    (payOrder (createOrder Store.init [1, 2]).1 99).2 = NotFound ∧
    (updateOrderStatus (createOrder Store.init [1, 2]).1 99 "Selesai").2 = NotFound :=
  ⟨by decide,
   (notFound_absent (createOrder Store.init [1, 2]).1 99 [1] "Selesai").1 (by decide)⟩

/-! ## The id counter -/

theorem addItemToOrder_orderID (s : Store) (k : Int) (ids : List Int) :
    (addItemToOrder s k ids).1.orderID = s.orderID := by
  cases hk : mapGet s.orders k with
  | none => rw [addItemToOrder_absent s k ids hk]
  | some o => rw [addItemToOrder_eq s k ids o hk]

theorem payOrder_orderID (s : Store) (k : Int) : (payOrder s k).1.orderID = s.orderID := by
  cases hk : mapGet s.orders k with
  | none => rw [payOrder_absent s k hk]
  | some o =>
    by_cases hst : o.Status = StatusProses
    · rw [payOrder_proses s k o hk hst]
    · rw [payOrder_other s k o hk hst]

theorem updateOrderStatus_orderID (s : Store) (k : Int) (st : OrderStatus) :
    (updateOrderStatus s k st).1.orderID = s.orderID := by
  cases hk : mapGet s.orders k with
  | none => rw [updateOrderStatus_absent s k st hk]
  | some o => rw [updateOrderStatus_eq s k st o hk]

theorem run_append (s : Store) (xs ys : List Op) :
    run s (xs ++ ys) = run (run s xs) ys := by
  induction xs generalizing s with
  | nil => rfl
  | cons op rest ih => simp [run, ih]

theorem run_orderID (ops : List Op) (s : Store) :
    (run s ops).orderID = s.orderID + countCreates ops := by
  induction ops generalizing s with
  | nil => simp [run, countCreates]
  | cons op rest ih =>
    cases op with
    | create items =>
      simp only [run, step, countCreates, ih, createOrder_eq]
      push_cast
      ring
    | addItems k items => simp only [run, step, countCreates, ih, addItemToOrder_orderID]
    | pay k => simp only [run, step, countCreates, ih, payOrder_orderID]
    | setStatus k st => simp only [run, step, countCreates, ih, updateOrderStatus_orderID]
    | list => simp only [run, step, countCreates, ih, getOrderHistory]

/-- C8: the counter starts at 1; each CreateOrder returns an order whose id is
the current counter value and raises the counter by exactly 1; AddItems,
PayOrder, SetStatus and ListOrders, failing or not, leave the counter as it
is; so the CreateOrder that follows k-1 earlier CreateOrder calls from the
initial store returns id k, and two different CreateOrder calls of one call
sequence never return the same id. -/
theorem orderID_sequence :
    Store.init.orderID = 1 ∧
    (∀ (s : Store) (ids : List Int), ∃ o : Order,
        (createOrder s ids).2 = .order o ∧ o.ID = s.orderID ∧
        (createOrder s ids).1.orderID = s.orderID + 1) ∧
    (∀ (s : Store) (k : Int) (ids : List Int),
        (addItemToOrder s k ids).1.orderID = s.orderID) ∧
    (∀ (s : Store) (k : Int), (payOrder s k).1.orderID = s.orderID) ∧
    (∀ (s : Store) (k : Int) (st : OrderStatus),
        (updateOrderStatus s k st).1.orderID = s.orderID) ∧
    (∀ s : Store, (getOrderHistory s).1.orderID = s.orderID) ∧
    (∀ (pre : List Op) (ids : List Int), ∃ o : Order,
        (createOrder (run Store.init pre) ids).2 = .order o ∧
        o.ID = (countCreates pre : Int) + 1) ∧
    (∀ (pre mid : List Op) (ids ids' : List Int) (o o' : Order),
        (createOrder (run Store.init pre) ids).2 = .order o →
        (createOrder (run Store.init (pre ++ .create ids :: mid)) ids').2 = .order o' →
        o.ID ≠ o'.ID) := by
  refine ⟨rfl, ?_, addItemToOrder_orderID, payOrder_orderID, updateOrderStatus_orderID,
    fun _ => rfl, ?_, ?_⟩
  · intro s ids
    rw [createOrder_eq]
    exact ⟨_, rfl, rfl, rfl⟩
  · intro pre ids
    rw [createOrder_eq]
    refine ⟨_, rfl, ?_⟩
    show (run Store.init pre).orderID = _
    rw [run_orderID]
    simp [Store.init, Int.add_comm]
  · intro pre mid ids ids' o o' h h'
    rw [createOrder_eq] at h h'
    injection h with h
    injection h' with h'
    subst h
    subst h'
    show (run Store.init pre).orderID ≠ (run Store.init (pre ++ .create ids :: mid)).orderID
    rw [run_append, run_orderID (.create ids :: mid) (run Store.init pre)]
    simp only [countCreates]
    push_cast
    omega

/-- C8 at a concrete call sequence: the first and the third creation, with a
failed payment and a status change in between. -/
theorem orderID_sequence_witness :
    (createOrder (run Store.init []) [1]).2 =
        .order { ID := 1, Items := [{ ID := 1, Name := "Nasi Goreng", Price := 25000 }],
                 Total := 25000, Status := "Diproses" } ∧
    (createOrder (run Store.init ([] ++ .create [1] :: [.pay 9, .create [], .setStatus 1 "x"]))
        [2]).2 =
        .order { ID := 3, Items := [{ ID := 2, Name := "Mie Goreng", Price := 20000 }],
                 Total := 20000, Status := "Diproses" } ∧
    (1 : Int) ≠ 3 :=
  ⟨by decide, by decide,
   orderID_sequence.2.2.2.2.2.2.2 [] [.pay 9, .create [], .setStatus 1 "x"] [1] [2]
     { ID := 1, Items := [{ ID := 1, Name := "Nasi Goreng", Price := 25000 }],
       Total := 25000, Status := "Diproses" }
     { ID := 3, Items := [{ ID := 2, Name := "Mie Goreng", Price := 20000 }],
       Total := 20000, Status := "Diproses" }
     (by decide) (by decide)⟩

/-! ## Failures -/

/-- C9: whenever AddItems, PayOrder or SetStatus writes a failure, the store
after the call (registry and id counter) is the store before the call. -/
theorem failure_atomic (s : Store) (k : Int) (ids : List Int) (st : OrderStatus)
    (msg : String) (code : Nat) :
    ((addItemToOrder s k ids).2 = .error msg code → (addItemToOrder s k ids).1 = s) ∧
    ((payOrder s k).2 = .error msg code → (payOrder s k).1 = s) ∧
    ((updateOrderStatus s k st).2 = .error msg code → (updateOrderStatus s k st).1 = s) := by
  cases hk : mapGet s.orders k with
  | none =>
    rw [addItemToOrder_absent s k ids hk, payOrder_absent s k hk,
      updateOrderStatus_absent s k st hk]
    simp
  | some o =>
    rw [addItemToOrder_eq s k ids o hk, updateOrderStatus_eq s k st o hk]
    refine ⟨fun h => by simp at h, ?_, fun h => by simp at h⟩
    by_cases hst : o.Status = StatusProses
    · rw [payOrder_proses s k o hk hst]
      intro h
      simp [PaymentConfirmed] at h
    · rw [payOrder_other s k o hk hst]
      intro _
      rfl

/-- C9 at concrete calls: a second payment of order 1 (InvalidState) and calls
on the missing order 99 (NotFound). -/
theorem failure_atomic_witness :
    (payOrder (run Store.init [.create [1, 2], .pay 1]) 1).2 = InvalidState ∧
    (payOrder (run Store.init [.create [1, 2], .pay 1]) 1).1 =
      run Store.init [.create [1, 2], .pay 1] ∧
    (addItemToOrder (run Store.init [.create [1, 2], .pay 1]) 99 [1]).2 = NotFound ∧
    (addItemToOrder (run Store.init [.create [1, 2], .pay 1]) 99 [1]).1 =
      run Store.init [.create [1, 2], .pay 1] ∧
    (updateOrderStatus (run Store.init [.create [1, 2], .pay 1]) 99 "Selesai").2 = NotFound ∧
    (updateOrderStatus (run Store.init [.create [1, 2], .pay 1]) 99 "Selesai").1 =
      run Store.init [.create [1, 2], .pay 1] :=
  ⟨by decide,
   (failure_atomic (run Store.init [.create [1, 2], .pay 1]) 1 [] ""
      "Pesanan sudah dibayar atau sedang diproses" 400).2.1 (by decide),
   by decide,
   (failure_atomic (run Store.init [.create [1, 2], .pay 1]) 99 [1] ""
      "Pesanan tidak ditemukan" 404).1 (by decide),
   by decide,
   (failure_atomic (run Store.init [.create [1, 2], .pay 1]) 99 [] "Selesai"
      "Pesanan tidak ditemukan" 404).2.2 (by decide)⟩

/-! ## Resolution of item ids -/

theorem length_filter_menu (id : Int) :
    (menu.filter (fun m => m.ID = id)).length = if inCatalog id then 1 else 0 := by
  by_cases h1 : id = 1
  · subst h1; rfl
  by_cases h2 : id = 2
  · subst h2; rfl
  by_cases h3 : id = 3
  · subst h3; rfl
  have hc : ¬ inCatalog id = true := by
    rw [inCatalog_iff]; simp [h1, h2, h3]
  rw [filter_menu]
  simp [h1, h2, h3, hc]

theorem length_resolve (ids : List Int) :
    (resolve ids).length = (ids.filter inCatalog).length := by
  induction ids with
  | nil => rfl
  | cons id rest ih =>
    rw [resolve_cons, List.length_append, ih, length_filter_menu]
    by_cases h : inCatalog id = true
    · simp [h, List.filter_cons, Nat.add_comm]
    · simp [h, List.filter_cons]

theorem count_filter_menu (id : Int) (m : MenuItem) (hm : m ∈ menu) :
    (menu.filter (fun x => x.ID = id)).count m = if m.ID = id then 1 else 0 := by
  have hm' : m = ⟨1, "Nasi Goreng", 25000⟩ ∨ m = ⟨2, "Mie Goreng", 20000⟩ ∨
      m = ⟨3, "Ayam Bakar", 30000⟩ := by
    simpa [menu] using hm
  by_cases h1 : id = 1
  · subst h1
    rcases hm' with h | h | h <;> subst h <;> decide
  by_cases h2 : id = 2
  · subst h2
    rcases hm' with h | h | h <;> subst h <;> decide
  by_cases h3 : id = 3
  · subst h3
    rcases hm' with h | h | h <;> subst h <;> decide
  have e1 : ¬ (1 : Int) = id := fun e => h1 e.symm
  have e2 : ¬ (2 : Int) = id := fun e => h2 e.symm
  have e3 : ¬ (3 : Int) = id := fun e => h3 e.symm
  rw [filter_menu]
  rcases hm' with h | h | h <;> subst h <;> simp [h1, h2, h3, e1, e2, e3]

theorem count_resolve (ids : List Int) (m : MenuItem) (hm : m ∈ menu) :
    (resolve ids).count m = ids.count m.ID := by
  induction ids with
  | nil => rfl
  | cons id rest ih =>
    rw [resolve_cons, List.count_append, ih, count_filter_menu id m hm, List.count_cons]
    by_cases h : m.ID = id
    · simp [h, Nat.add_comm]
    · have h' : ¬ id = m.ID := fun e => h e.symm
      simp [h, h']

/-- C10: the loop shared by CreateOrder and AddItems appends to the item slice
the concatenation, over the input ids in input order, of the catalog entries
whose id equals that input id; CreateOrder returns exactly these items and
AddItems the previous items followed by them; an id with no catalog entry
resolves to nothing; the catalog ids are pairwise distinct, so an id of the
catalog resolves to exactly one item; each catalog item occurs in the result as
often as its id occurs in the input; and the resolved sequence is never longer
than the input. -/
theorem resolution :
    (∀ (ids : List Int) (acc : List MenuItem × Nat),
        (itemsLoop ids acc).1 =
          acc.1 ++ ids.flatMap (fun id => menu.filter (fun m => m.ID = id))) ∧
    (∀ (s : Store) (ids : List Int), ∃ o : Order,
        (createOrder s ids).2 = .order o ∧ o.Items = resolve ids) ∧
    (∀ (s : Store) (k : Int) (ids : List Int) (before : Order),
        mapGet s.orders k = some before → ∃ o : Order,
          (addItemToOrder s k ids).2 = .order o ∧ o.Items = before.Items ++ resolve ids) ∧
    (∀ id : Int, inCatalog id = false → resolve [id] = []) ∧
    (menu.map MenuItem.ID).Nodup ∧
    (∀ id : Int, inCatalog id = true →
        ∃ m : MenuItem, m ∈ menu ∧ m.ID = id ∧ resolve [id] = [m]) ∧
    (∀ (ids : List Int) (m : MenuItem), m ∈ menu → (resolve ids).count m = ids.count m.ID) ∧
    (∀ ids : List Int, (resolve ids).length ≤ ids.length) := by
  refine ⟨?_, ?_, ?_, ?_, by decide, ?_, count_resolve, ?_⟩
  · intro ids acc
    rw [itemsLoop_eq]
    rfl
  · intro s ids
    rw [createOrder_eq]
    exact ⟨_, rfl, rfl⟩
  · intro s k ids before h
    rw [addItemToOrder_eq s k ids before h]
    exact ⟨_, rfl, rfl⟩
  · intro id hid
    have hl := length_resolve [id]
    simp only [List.filter_cons, hid, List.filter_nil] at hl
    exact List.length_eq_zero.mp (by simpa using hl)
  · intro id hid
    rcases (inCatalog_iff id).mp hid with h | h | h <;> subst h
    · exact ⟨⟨1, "Nasi Goreng", 25000⟩, by decide, rfl, by decide⟩
    · exact ⟨⟨2, "Mie Goreng", 20000⟩, by decide, rfl, by decide⟩
    · exact ⟨⟨3, "Ayam Bakar", 30000⟩, by decide, rfl, by decide⟩
  · intro ids
    rw [length_resolve]
    exact List.length_filter_le _ _

/-- C10 at concrete inputs: a repeated id, an unknown id, and an addition to an
existing order. -/
theorem resolution_witness :
    resolve [3, 7, 3] =
        [{ ID := 3, Name := "Ayam Bakar", Price := 30000 },
         { ID := 3, Name := "Ayam Bakar", Price := 30000 }] ∧
    inCatalog 7 = false ∧ resolve [7] = [] ∧
    inCatalog 3 = true ∧
    (∃ m : MenuItem, m ∈ menu ∧ m.ID = 3 ∧ resolve [3] = [m]) ∧
    (resolve [3, 7, 3]).count { ID := 3, Name := "Ayam Bakar", Price := 30000 } =
        [(3 : Int), 7, 3].count 3 ∧
    (∃ o : Order,
        (addItemToOrder (createOrder Store.init [1]).1 1 [3, 7, 3]).2 = .order o ∧
        o.Items = [{ ID := 1, Name := "Nasi Goreng", Price := 25000 }] ++ resolve [3, 7, 3]) :=
  ⟨by decide, by decide, resolution.2.2.2.1 7 (by decide), by decide,
   resolution.2.2.2.2.2.1 3 (by decide),
   resolution.2.2.2.2.2.2.1 [3, 7, 3] { ID := 3, Name := "Ayam Bakar", Price := 30000 }
     (by decide),
   resolution.2.2.1 (createOrder Store.init [1]).1 1 [3, 7, 3]
     { ID := 1, Items := [{ ID := 1, Name := "Nasi Goreng", Price := 25000 }],
       Total := 25000, Status := "Diproses" } (by decide)⟩

/-! ## Well-formedness of the registry -/

theorem mapGet_eq_none_iff (m : List (Int × Order)) (k : Int) :
    mapGet m k = none ↔ k ∉ m.map Prod.fst := by
  induction m with
  | nil => simp [mapGet]
  | cons p rest ih =>
    obtain ⟨a, b⟩ := p
    by_cases h : a = k
    · simp [mapGet, h]
    · have h' : ¬ k = a := fun e => h e.symm
      simp [mapGet, h, h', ih]

theorem keys_mapSet_of_mem (m : List (Int × Order)) (k : Int) (v : Order)
    (h : k ∈ m.map Prod.fst) : (mapSet m k v).map Prod.fst = m.map Prod.fst := by
  induction m with
  | nil => simp at h
  | cons p rest ih =>
    obtain ⟨a, b⟩ := p
    by_cases hk : a = k
    · simp [mapSet, hk]
    · have hk' : ¬ k = a := fun e => hk e.symm
      have hr : k ∈ rest.map Prod.fst := by
        simpa [hk'] using h
      simp [mapSet, hk, ih hr]

theorem keys_mapSet_of_not_mem (m : List (Int × Order)) (k : Int) (v : Order)
    (h : k ∉ m.map Prod.fst) : (mapSet m k v).map Prod.fst = m.map Prod.fst ++ [k] := by
  induction m with
  | nil => simp [mapSet]
  | cons p rest ih =>
    obtain ⟨a, b⟩ := p
    have hk : ¬ a = k := by
      intro e
      exact h (by simp [e])
    have hr : k ∉ rest.map Prod.fst := by
      intro e
      exact h (by simp only [List.map_cons, List.mem_cons]; exact Or.inr e)
    simp [mapSet, hk, ih hr]

theorem keys_mapSet_of_mapGet (m : List (Int × Order)) (k : Int) (v o : Order)
    (h : mapGet m k = some o) : (mapSet m k v).map Prod.fst = m.map Prod.fst := by
  apply keys_mapSet_of_mem
  by_contra hn
  rw [← mapGet_eq_none_iff] at hn
  rw [hn] at h
  exact Option.noConfusion h

theorem mem_firstKeys (n : Nat) (k : Int) : k ∈ firstKeys n ↔ 1 ≤ k ∧ k ≤ n := by
  simp only [firstKeys, List.mem_map, List.mem_range]
  constructor
  · rintro ⟨i, hi, rfl⟩
    omega
  · rintro ⟨h1, h2⟩
    refine ⟨(k - 1).toNat, ?_, ?_⟩ <;> omega

theorem firstKeys_succ (n : Nat) : firstKeys (n + 1) = firstKeys n ++ [(n : Int) + 1] := by
  simp [firstKeys, List.range_succ]

theorem firstKeys_nodup (n : Nat) : (firstKeys n).Nodup := by
  unfold firstKeys
  apply List.Nodup.map
  · intro a b h
    simpa using h
  · exact List.nodup_range n

theorem length_firstKeys (n : Nat) : (firstKeys n).length = n := by
  simp [firstKeys]

theorem wellFormed_init : WellFormed Store.init 0 := by
  simp [WellFormed, Store.init, firstKeys]

theorem wellFormed_update (s : Store) (n : Nat) (k : Int) (o v : Order)
    (hs : WellFormed s n) (hk : mapGet s.orders k = some o) (hv : v.ID = o.ID) :
    WellFormed ⟨mapSet s.orders k v, s.orderID⟩ n := by
  obtain ⟨h1, h2, h3⟩ := hs
  refine ⟨h1, ?_, ?_⟩
  · show (mapSet s.orders k v).map Prod.fst = firstKeys n
    rw [keys_mapSet_of_mapGet _ k v o hk, h2]
  · intro p hp
    rcases mem_mapSet hp with h | h
    · subst h
      have := h3 _ (mem_of_mapGet hk)
      simpa [hv] using this
    · exact h3 p h

theorem wellFormed_step (s : Store) (n : Nat) (op : Op) (hs : WellFormed s n) :
    WellFormed (step s op).1 (n + countCreates [op]) := by
  cases op with
  | create items =>
    obtain ⟨h1, h2, h3⟩ := hs
    have hfresh : s.orderID ∉ s.orders.map Prod.fst := by
      rw [h2, mem_firstKeys, h1]
      omega
    simp only [step, createOrder_eq, countCreates]
    refine ⟨?_, ?_, ?_⟩
    · show s.orderID + 1 = _
      rw [h1]
      push_cast
      ring
    · show (mapSet s.orders s.orderID _).map Prod.fst = _
      rw [keys_mapSet_of_not_mem _ _ _ hfresh, h2, h1, firstKeys_succ]
    · intro p hp
      rcases mem_mapSet hp with h | h
      · subst h
        rfl
      · exact h3 p h
  | addItems k items =>
    simp only [step, countCreates, Nat.add_zero]
    cases hk : mapGet s.orders k with
    | none =>
      rw [addItemToOrder_absent s k items hk]
      exact hs
    | some o =>
      rw [addItemToOrder_eq s k items o hk]
      exact wellFormed_update s n k o _ hs hk rfl
  | pay k =>
    simp only [step, countCreates, Nat.add_zero]
    cases hk : mapGet s.orders k with
    | none =>
      rw [payOrder_absent s k hk]
      exact hs
    | some o =>
      by_cases hst : o.Status = StatusProses
      · rw [payOrder_proses s k o hk hst]
        exact wellFormed_update s n k o _ hs hk rfl
      · rw [payOrder_other s k o hk hst]
        exact hs
  | setStatus k st =>
    simp only [step, countCreates, Nat.add_zero]
    cases hk : mapGet s.orders k with
    | none =>
      rw [updateOrderStatus_absent s k st hk]
      exact hs
    | some o =>
      rw [updateOrderStatus_eq s k st o hk]
      exact wellFormed_update s n k o _ hs hk rfl
  | list =>
    simpa only [step, getOrderHistory, countCreates, Nat.add_zero] using hs

theorem countCreates_cons (op : Op) (rest : List Op) :
    countCreates (op :: rest) = countCreates [op] + countCreates rest := by
  cases op <;> simp [countCreates, Nat.add_comm]

theorem wellFormed_run (ops : List Op) (s : Store) (n : Nat) (hs : WellFormed s n) :
    WellFormed (run s ops) (n + countCreates ops) := by
  induction ops generalizing s n with
  | nil => simpa [run, countCreates] using hs
  | cons op rest ih =>
    simp only [run]
    rw [countCreates_cons, ← Nat.add_assoc]
    exact ih _ _ (wellFormed_step s n op hs)

theorem wellFormed_reachable (ops : List Op) :
    WellFormed (run Store.init ops) (countCreates ops) := by
  simpa using wellFormed_run ops Store.init 0 wellFormed_init

/-! ## Creation never fails -/

theorem resolve_unknown (ids : List Int) (h : ∀ id ∈ ids, inCatalog id = false) :
    resolve ids = [] := by
  apply List.length_eq_zero.mp
  rw [length_resolve]
  have hf : ids.filter inCatalog = [] := by
    rw [List.filter_eq_nil_iff]
    intro id hid
    simp [h id hid]
  rw [hf]
  rfl

/-- C11: for every sequence of item ids, the empty one and those holding only
ids absent from the catalog included, CreateOrder returns an order with the
current counter as id and status Diproses, and that order is in the registry
under its id afterwards; when every input id is absent from the catalog (in
particular when the input is empty) the order has no items and total 0. -/
theorem createOrder_never_fails (s : Store) (ids : List Int) :
    ∃ o : Order,
      (createOrder s ids).2 = .order o ∧ o.ID = s.orderID ∧ o.Status = StatusProses ∧
      mapGet (createOrder s ids).1.orders o.ID = some o ∧
      ((∀ id ∈ ids, inCatalog id = false) → o.Items = [] ∧ o.Total = 0) := by
  rw [createOrder_eq]
  refine ⟨_, rfl, rfl, rfl, mapGet_mapSet_self _ _ _, ?_⟩
  intro h
  simp [resolve_unknown ids h, sumPrices]

/-- C11 at concrete inputs: the empty input and an input of unknown ids only,
on a store that already holds an order. -/
theorem createOrder_never_fails_witness :
    (createOrder (createOrder Store.init [1]).1 []).2 =
        .order { ID := 2, Items := [], Total := 0, Status := "Diproses" } ∧
    (createOrder (createOrder Store.init [1]).1 [7, 0, -1]).2 =
        .order { ID := 2, Items := [], Total := 0, Status := "Diproses" } ∧
    mapGet (createOrder (createOrder Store.init [1]).1 [7, 0, -1]).1.orders 2 =
        some { ID := 2, Items := [], Total := 0, Status := "Diproses" } ∧
    (∃ o : Order,
      (createOrder (createOrder Store.init [1]).1 [7, 0, -1]).2 = .order o ∧
      o.ID = (createOrder Store.init [1]).1.orderID ∧ o.Status = StatusProses ∧
      mapGet (createOrder (createOrder Store.init [1]).1 [7, 0, -1]).1.orders o.ID = some o ∧
      ((∀ id ∈ [(7 : Int), 0, -1], inCatalog id = false) → o.Items = [] ∧ o.Total = 0)) :=
  ⟨by decide, by decide, by decide,
   createOrder_never_fails (createOrder Store.init [1]).1 [7, 0, -1]⟩

/-! ## Status values -/

theorem isEnumerated_iff (st : OrderStatus) :
    isEnumerated st = true ↔ st = StatusProses ∨ st = StatusAntar ∨ st = StatusSelesai := by
  simp [isEnumerated, or_assoc]

theorem step_enumerated (s : Store) (op : Op)
    (hs : ∀ p ∈ s.orders, isEnumerated p.2.Status = true)
    (hop : statusArgsEnumerated [op] = true) :
    ∀ p ∈ (step s op).1.orders, isEnumerated p.2.Status = true := by
  intro p hp
  cases op with
  | create items =>
    simp only [step, createOrder_eq] at hp
    rcases mem_mapSet hp with h | h
    · subst h
      show isEnumerated StatusProses = true
      decide
    · exact hs p h
  | addItems k items =>
    cases hk : mapGet s.orders k with
    | none =>
      simp only [step, addItemToOrder_absent s k items hk] at hp
      exact hs p hp
    | some before =>
      simp only [step, addItemToOrder_eq s k items before hk] at hp
      rcases mem_mapSet hp with h | h
      · subst h
        exact hs (k, before) (mem_of_mapGet hk)
      · exact hs p h
  | pay k =>
    cases hk : mapGet s.orders k with
    | none =>
      simp only [step, payOrder_absent s k hk] at hp
      exact hs p hp
    | some before =>
      by_cases hst : before.Status = StatusProses
      · simp only [step, payOrder_proses s k before hk hst] at hp
        rcases mem_mapSet hp with h | h
        · subst h
          show isEnumerated StatusAntar = true
          decide
        · exact hs p h
      · simp only [step, payOrder_other s k before hk hst] at hp
        exact hs p hp
  | setStatus k st =>
    have hst : isEnumerated st = true := by
      simpa [statusArgsEnumerated] using hop
    cases hk : mapGet s.orders k with
    | none =>
      simp only [step, updateOrderStatus_absent s k st hk] at hp
      exact hs p hp
    | some before =>
      simp only [step, updateOrderStatus_eq s k st before hk] at hp
      rcases mem_mapSet hp with h | h
      · subst h
        exact hst
      · exact hs p h
  | list =>
    simp only [step, getOrderHistory] at hp
    exact hs p hp

theorem statusArgsEnumerated_cons (op : Op) (rest : List Op) :
    statusArgsEnumerated (op :: rest) =
      (statusArgsEnumerated [op] && statusArgsEnumerated rest) := by
  cases op <;> simp [statusArgsEnumerated]

theorem run_enumerated (ops : List Op) (s : Store)
    (hs : ∀ p ∈ s.orders, isEnumerated p.2.Status = true)
    (hops : statusArgsEnumerated ops = true) :
    ∀ p ∈ (run s ops).orders, isEnumerated p.2.Status = true := by
  induction ops generalizing s with
  | nil => simpa [run] using hs
  | cons op rest ih =>
    rw [statusArgsEnumerated_cons, Bool.and_eq_true] at hops
    simp only [run]
    exact ih _ (step_enumerated s op hs hops.1) hops.2

/-- C12, as the code has it: in every store reached from the initial store by a
sequence of the five operations in which every SetStatus call carries one of
the three literal names, the status of every order is Diproses, Diantar or
Selesai. -/
theorem status_enumerated (ops : List Op) (hops : statusArgsEnumerated ops = true)
    (p : Int × Order) (hp : p ∈ (run Store.init ops).orders) :
    p.2.Status = StatusProses ∨ p.2.Status = StatusAntar ∨ p.2.Status = StatusSelesai :=
  (isEnumerated_iff _).mp
    (run_enumerated ops Store.init (by simp [Store.init]) hops p hp)

/-- C12 (amended) at a concrete call sequence. -/
theorem status_enumerated_witness :
    ("Selesai" : OrderStatus) = StatusProses ∨ ("Selesai" : OrderStatus) = StatusAntar ∨
      ("Selesai" : OrderStatus) = StatusSelesai :=
  status_enumerated [.create [1], .pay 1, .setStatus 1 "Selesai", .list] (by decide)
    ((1 : Int),
     ({ ID := 1, Items := [{ ID := 1, Name := "Nasi Goreng", Price := 25000 }],
        Total := 25000, Status := "Selesai" } : Order))
    (by decide)

/-- C12 as stated fails: after CreateOrder([1]) and SetStatus(1, "Batal") the
registry holds order 1 with status "Batal", which is none of the three literal
names. -/
theorem status_enumerated_counterexample :
    mapGet (run Store.init [.create [1], .setStatus 1 "Batal"]).orders 1 =
        some { ID := 1, Items := [{ ID := 1, Name := "Nasi Goreng", Price := 25000 }],
               Total := 25000, Status := "Batal" } ∧
    ¬ (("Batal" : OrderStatus) = StatusProses ∨ ("Batal" : OrderStatus) = StatusAntar ∨
        ("Batal" : OrderStatus) = StatusSelesai) := by
  decide

/-! ## The second example scenario -/

/-- C13, as the code has it: with the built-in catalog, after CreateOrder([1,2])
has produced order 1 with total 45000, AddItems(1,[3]) returns without error
order 1 with Ayam Bakar appended and total 75000, since id 3 is in the built-in
catalog; AddItems(1,[4]), whose id is absent from it, returns without error
order 1 with its items unchanged and total 45000. -/
theorem scenario_addItems :
    (createOrder Store.init [1, 2]).2 =
        .order { ID := 1,
                 Items := [{ ID := 1, Name := "Nasi Goreng", Price := 25000 },
                           { ID := 2, Name := "Mie Goreng", Price := 20000 }],
                 Total := 45000, Status := "Diproses" } ∧
    (addItemToOrder (createOrder Store.init [1, 2]).1 1 [3]).2 =
        .order { ID := 1,
                 Items := [{ ID := 1, Name := "Nasi Goreng", Price := 25000 },
                           { ID := 2, Name := "Mie Goreng", Price := 20000 },
                           { ID := 3, Name := "Ayam Bakar", Price := 30000 }],
                 Total := 75000, Status := "Diproses" } ∧
    (addItemToOrder (createOrder Store.init [1, 2]).1 1 [4]).2 =
        .order { ID := 1,
                 Items := [{ ID := 1, Name := "Nasi Goreng", Price := 25000 },
                           { ID := 2, Name := "Mie Goreng", Price := 20000 }],
                 Total := 45000, Status := "Diproses" } := by
  decide

/-- C13 as stated fails: AddItems(1,[3]) after CreateOrder([1,2]) does not
return an order 1 with the two original items and total 45000. -/
theorem scenario_addItems_counterexample :
    ¬ ∃ o : Order,
        (addItemToOrder (createOrder Store.init [1, 2]).1 1 [3]).2 = .order o ∧
        o.ID = 1 ∧
        o.Items = [{ ID := 1, Name := "Nasi Goreng", Price := 25000 },
                   { ID := 2, Name := "Mie Goreng", Price := 20000 }] ∧
        o.Total = 45000 := by
  rintro ⟨o, h, -, -, ht⟩
  have he : (addItemToOrder (createOrder Store.init [1, 2]).1 1 [3]).2 =
      .order { ID := 1,
               Items := [{ ID := 1, Name := "Nasi Goreng", Price := 25000 },
                         { ID := 2, Name := "Mie Goreng", Price := 20000 },
                         { ID := 3, Name := "Ayam Bakar", Price := 30000 }],
               Total := 75000, Status := "Diproses" } := by decide
  rw [he] at h
  injection h with h
  subst h
  exact absurd ht (by decide)

/-! ## Listing and persistence of orders -/

theorem mapGet_iff_mem (m : List (Int × Order)) (hn : (m.map Prod.fst).Nodup)
    (k : Int) (o : Order) : mapGet m k = some o ↔ (k, o) ∈ m := by
  refine ⟨mem_of_mapGet, ?_⟩
  induction m with
  | nil => simp
  | cons p rest ih =>
    obtain ⟨a, b⟩ := p
    simp only [List.map_cons, List.nodup_cons] at hn
    intro h
    rcases List.mem_cons.mp h with h | h
    · injection h with h1 h2
      simp [mapGet, h1, h2]
    · have hk : ¬ a = k := by
        intro e
        apply hn.1
        rw [e]
        exact List.mem_map_of_mem Prod.fst h
      simp [mapGet, hk, ih hn.2 h]

theorem ids_eq_keys (m : List (Int × Order)) (h : ∀ p ∈ m, p.2.ID = p.1) :
    (m.map Prod.snd).map Order.ID = m.map Prod.fst := by
  induction m with
  | nil => rfl
  | cons p rest ih =>
    have hp := h p (List.mem_cons_self _ _)
    have hr := ih (fun q hq => h q (List.mem_cons_of_mem _ hq))
    simp only [List.map_cons, hp, hr]

/-- C14: ListOrders leaves the store as it is, and on every store reached from
the initial store it returns the orders of the registry, each exactly once: an
order is returned if and only if it is stored under its id, every stored order
occurs once in the result, the returned ids are pairwise distinct, and the
number of returned orders is the number of CreateOrder calls made so far. -/
theorem listOrders_snapshot :
    (∀ s : Store, (getOrderHistory s).1 = s) ∧
    (∀ ops : List Op, ∃ os : List Order,
      (getOrderHistory (run Store.init ops)).2 = .orders os ∧
      os.length = countCreates ops ∧
      (os.map Order.ID).Nodup ∧
      (∀ (k : Int) (o : Order),
        mapGet (run Store.init ops).orders k = some o ↔ (o ∈ os ∧ o.ID = k)) ∧
      (∀ (k : Int) (o : Order),
        mapGet (run Store.init ops).orders k = some o → os.count o = 1)) := by
  refine ⟨fun _ => rfl, fun ops => ?_⟩
  obtain ⟨-, h2, h3⟩ := wellFormed_reachable ops
  have hids := ids_eq_keys _ h3
  have hnd : ((run Store.init ops).orders.map Prod.fst).Nodup := by
    rw [h2]
    exact firstKeys_nodup _
  have hmem : ∀ (k : Int) (o : Order),
      mapGet (run Store.init ops).orders k = some o ↔
        (o ∈ (run Store.init ops).orders.map Prod.snd ∧ o.ID = k) := by
    intro k o
    rw [mapGet_iff_mem _ hnd]
    constructor
    · intro h
      exact ⟨List.mem_map_of_mem Prod.snd h, h3 _ h⟩
    · rintro ⟨h, hk⟩
      obtain ⟨q, hq, rfl⟩ := List.mem_map.mp h
      have := h3 q hq
      rw [← hk, this]
      exact hq
  have hnd' : (((run Store.init ops).orders.map Prod.snd).map Order.ID).Nodup := by
    rw [hids]
    exact hnd
  refine ⟨(run Store.init ops).orders.map Prod.snd, rfl, ?_, hnd', hmem, ?_⟩
  · rw [← List.length_map _ Order.ID, hids, h2, length_firstKeys]
  · intro k o h
    exact List.count_eq_one_of_mem (List.Nodup.of_map _ hnd') ((hmem k o).mp h).1

/-- C14 at a concrete call sequence: two creations among other calls. -/
theorem listOrders_snapshot_witness :
    (getOrderHistory (run Store.init [.create [1], .pay 1, .create [], .addItems 2 [3]])).2 =
      .orders [{ ID := 1, Items := [{ ID := 1, Name := "Nasi Goreng", Price := 25000 }],
                 Total := 25000, Status := "Diantar" },
               { ID := 2, Items := [{ ID := 3, Name := "Ayam Bakar", Price := 30000 }],
                 Total := 30000, Status := "Diproses" }] ∧
    (∃ os : List Order,
      (getOrderHistory
        (run Store.init [.create [1], .pay 1, .create [], .addItems 2 [3]])).2 = .orders os ∧
      os.length = 2) :=
  ⟨by decide,
   (listOrders_snapshot.2 [.create [1], .pay 1, .create [], .addItems 2 [3]]).imp
     (fun _ h => ⟨h.1, h.2.1⟩)⟩

theorem step_keeps (s : Store) (op : Op) (k : Int) (o : Order)
    (h : mapGet s.orders k = some o) :
    ∃ o' : Order, mapGet (step s op).1.orders k = some o' ∧
      (mapGet s.orders s.orderID = none → o'.ID = o.ID) := by
  cases op with
  | create items =>
    simp only [step, createOrder_eq, mapGet_mapSet]
    by_cases hk : s.orderID = k
    · subst hk
      rw [h]
      exact ⟨_, if_pos rfl, fun e => Option.noConfusion e⟩
    · exact ⟨o, by simp [hk, h], fun _ => rfl⟩
  | addItems j items =>
    cases hj : mapGet s.orders j with
    | none =>
      simp only [step, addItemToOrder_absent s j items hj]
      exact ⟨o, h, fun _ => rfl⟩
    | some before =>
      simp only [step, addItemToOrder_eq s j items before hj, mapGet_mapSet]
      by_cases hk : j = k
      · subst hk
        rw [h] at hj
        injection hj with hj
        subst hj
        exact ⟨_, if_pos rfl, fun _ => rfl⟩
      · exact ⟨o, by simp [hk, h], fun _ => rfl⟩
  | pay j =>
    cases hj : mapGet s.orders j with
    | none =>
      simp only [step, payOrder_absent s j hj]
      exact ⟨o, h, fun _ => rfl⟩
    | some before =>
      by_cases hst : before.Status = StatusProses
      · simp only [step, payOrder_proses s j before hj hst, mapGet_mapSet]
        by_cases hk : j = k
        · subst hk
          rw [h] at hj
          injection hj with hj
          subst hj
          exact ⟨_, if_pos rfl, fun _ => rfl⟩
        · exact ⟨o, by simp [hk, h], fun _ => rfl⟩
      · simp only [step, payOrder_other s j before hj hst]
        exact ⟨o, h, fun _ => rfl⟩
  | setStatus j st =>
    cases hj : mapGet s.orders j with
    | none =>
      simp only [step, updateOrderStatus_absent s j st hj]
      exact ⟨o, h, fun _ => rfl⟩
    | some before =>
      simp only [step, updateOrderStatus_eq s j st before hj, mapGet_mapSet]
      by_cases hk : j = k
      · subst hk
        rw [h] at hj
        injection hj with hj
        subst hj
        exact ⟨_, if_pos rfl, fun _ => rfl⟩
      · exact ⟨o, by simp [hk, h], fun _ => rfl⟩
  | list =>
    simp only [step, getOrderHistory]
    exact ⟨o, h, fun _ => rfl⟩

theorem counter_fresh (ops : List Op) :
    mapGet (run Store.init ops).orders (run Store.init ops).orderID = none := by
  obtain ⟨h1, h2, -⟩ := wellFormed_reachable ops
  rw [mapGet_eq_none_iff, h2, mem_firstKeys, h1]
  omega

/-- C15: no operation removes an order: for every store and every call, an
order id that is a key of the registry before the call is a key after it; and
in every store the program can be in (reached from the initial store, where the
counter is not yet a key) the order stored under that id after the call has the
same id field as before. -/
theorem orders_never_deleted :
    (∀ (s : Store) (op : Op) (k : Int) (o : Order), mapGet s.orders k = some o →
      ∃ o' : Order, mapGet (step s op).1.orders k = some o') ∧
    (∀ (ops : List Op) (op : Op) (k : Int) (o : Order),
      mapGet (run Store.init ops).orders k = some o →
      ∃ o' : Order, mapGet (step (run Store.init ops) op).1.orders k = some o' ∧
        o'.ID = o.ID) := by
  constructor
  · intro s op k o h
    obtain ⟨o', h', -⟩ := step_keeps s op k o h
    exact ⟨o', h'⟩
  · intro ops op k o h
    obtain ⟨o', h', hid⟩ := step_keeps _ op k o h
    exact ⟨o', h', hid (counter_fresh ops)⟩

/-- C15 at concrete calls: order 1 across a creation and across a status
change. -/
theorem orders_never_deleted_witness :
    (∃ o' : Order,
      mapGet (step (run Store.init [.create [1, 2], .pay 1]) (.create [3])).1.orders 1 = some o' ∧
      o'.ID = 1) ∧
    (∃ o' : Order,
      mapGet (step (run Store.init [.create [1, 2], .pay 1]) (.setStatus 1 "x")).1.orders 1
        = some o' ∧
      o'.ID = 1) :=
  ⟨orders_never_deleted.2 [.create [1, 2], .pay 1] (.create [3]) 1
     { ID := 1,
       Items := [{ ID := 1, Name := "Nasi Goreng", Price := 25000 },
                 { ID := 2, Name := "Mie Goreng", Price := 20000 }],
       Total := 45000, Status := "Diantar" } (by decide),
   orders_never_deleted.2 [.create [1, 2], .pay 1] (.setStatus 1 "x") 1
     { ID := 1,
       Items := [{ ID := 1, Name := "Nasi Goreng", Price := 25000 },
                 { ID := 2, Name := "Mie Goreng", Price := 20000 }],
       Total := 45000, Status := "Diantar" } (by decide)⟩

/-! ## Frame conditions -/

theorem addItemToOrder_frame (s : Store) (k k' : Int) (ids : List Int) (hk : k' ≠ k) :
    mapGet (addItemToOrder s k ids).1.orders k' = mapGet s.orders k' := by
  have hne : ¬ k = k' := fun e => hk e.symm
  cases hj : mapGet s.orders k with
  | none => rw [addItemToOrder_absent s k ids hj]
  | some o =>
    rw [addItemToOrder_eq s k ids o hj]
    simp [mapGet_mapSet, hne]

theorem payOrder_frame (s : Store) (k k' : Int) (hk : k' ≠ k) :
    mapGet (payOrder s k).1.orders k' = mapGet s.orders k' := by
  have hne : ¬ k = k' := fun e => hk e.symm
  cases hj : mapGet s.orders k with
  | none => rw [payOrder_absent s k hj]
  | some o =>
    by_cases hst : o.Status = StatusProses
    · rw [payOrder_proses s k o hj hst]
      simp [mapGet_mapSet, hne]
    · rw [payOrder_other s k o hj hst]

theorem updateOrderStatus_frame (s : Store) (k k' : Int) (st : OrderStatus) (hk : k' ≠ k) :
    mapGet (updateOrderStatus s k st).1.orders k' = mapGet s.orders k' := by
  have hne : ¬ k = k' := fun e => hk e.symm
  cases hj : mapGet s.orders k with
  | none => rw [updateOrderStatus_absent s k st hj]
  | some o =>
    rw [updateOrderStatus_eq s k st o hj]
    simp [mapGet_mapSet, hne]

theorem createOrder_frame (s : Store) (k : Int) (ids : List Int) (hk : k ≠ s.orderID) :
    mapGet (createOrder s ids).1.orders k = mapGet s.orders k := by
  have hne : ¬ s.orderID = k := fun e => hk e.symm
  rw [createOrder_eq]
  simp [mapGet_mapSet, hne]

/-- C17: (a) AddItems, PayOrder and SetStatus on order o leave the lookup of
every other id and the id counter as they were; (b) a successful AddItems keeps
the id and the status of order o; (c) a successful PayOrder or SetStatus keeps
the id, the items and the total of order o; (d) CreateOrder leaves the lookup
of every id other than the counter as it was, and so, in every store reached
from the initial store, leaves every order already in the registry as it
was. -/
theorem frame_conditions :
    (∀ (s : Store) (k k' : Int) (ids : List Int) (st : OrderStatus), k' ≠ k →
      mapGet (addItemToOrder s k ids).1.orders k' = mapGet s.orders k' ∧
      mapGet (payOrder s k).1.orders k' = mapGet s.orders k' ∧
      mapGet (updateOrderStatus s k st).1.orders k' = mapGet s.orders k') ∧
    (∀ (s : Store) (k : Int) (ids : List Int) (st : OrderStatus),
      (addItemToOrder s k ids).1.orderID = s.orderID ∧
      (payOrder s k).1.orderID = s.orderID ∧
      (updateOrderStatus s k st).1.orderID = s.orderID) ∧
    (∀ (s : Store) (k : Int) (ids : List Int) (o o' : Order),
      mapGet s.orders k = some o → (addItemToOrder s k ids).2 = .order o' →
      mapGet (addItemToOrder s k ids).1.orders k = some o' ∧
      o'.ID = o.ID ∧ o'.Status = o.Status) ∧
    (∀ (s : Store) (k : Int) (o : Order),
      mapGet s.orders k = some o → (payOrder s k).2 = PaymentConfirmed →
      ∃ o' : Order, mapGet (payOrder s k).1.orders k = some o' ∧
        o'.ID = o.ID ∧ o'.Items = o.Items ∧ o'.Total = o.Total) ∧
    (∀ (s : Store) (k : Int) (st : OrderStatus) (o o' : Order),
      mapGet s.orders k = some o → (updateOrderStatus s k st).2 = .order o' →
      mapGet (updateOrderStatus s k st).1.orders k = some o' ∧
      o'.ID = o.ID ∧ o'.Items = o.Items ∧ o'.Total = o.Total) ∧
    (∀ (s : Store) (k : Int) (ids : List Int), k ≠ s.orderID →
      mapGet (createOrder s ids).1.orders k = mapGet s.orders k) ∧
    (∀ (ops : List Op) (k : Int) (ids : List Int) (o : Order),
      mapGet (run Store.init ops).orders k = some o →
      mapGet (createOrder (run Store.init ops) ids).1.orders k = some o) := by
  refine ⟨?_, ?_, ?_, ?_, ?_, createOrder_frame, ?_⟩
  · intro s k k' ids st hk
    exact ⟨addItemToOrder_frame s k k' ids hk, payOrder_frame s k k' hk,
      updateOrderStatus_frame s k k' st hk⟩
  · intro s k ids st
    exact ⟨addItemToOrder_orderID s k ids, payOrder_orderID s k,
      updateOrderStatus_orderID s k st⟩
  · intro s k ids o o' h hr
    rw [addItemToOrder_eq s k ids o h] at hr ⊢
    injection hr with hr
    subst hr
    exact ⟨mapGet_mapSet_self _ _ _, rfl, rfl⟩
  · intro s k o h hr
    by_cases hst : o.Status = StatusProses
    · rw [payOrder_proses s k o h hst]
      exact ⟨_, mapGet_mapSet_self _ _ _, rfl, rfl, rfl⟩
    · rw [payOrder_other s k o h hst] at hr
      simp [InvalidState, PaymentConfirmed] at hr
  · intro s k st o o' h hr
    rw [updateOrderStatus_eq s k st o h] at hr ⊢
    injection hr with hr
    subst hr
    exact ⟨mapGet_mapSet_self _ _ _, rfl, rfl, rfl⟩
  · intro ops k ids o h
    rw [createOrder_frame _ k ids, h]
    intro e
    rw [e, counter_fresh ops] at h
    exact Option.noConfusion h

/-- C17 at concrete calls on a store with orders 1 and 2. -/
theorem frame_conditions_witness :
    mapGet (addItemToOrder (run Store.init [.create [1], .create [2]]) 1 [3]).1.orders 2 =
      mapGet (run Store.init [.create [1], .create [2]]).orders 2 ∧
    mapGet (payOrder (run Store.init [.create [1], .create [2]]) 1).1.orders 2 =
      mapGet (run Store.init [.create [1], .create [2]]).orders 2 ∧
    mapGet (updateOrderStatus (run Store.init [.create [1], .create [2]]) 1 "Selesai").1.orders 2 =
      mapGet (run Store.init [.create [1], .create [2]]).orders 2 ∧
    (∃ o' : Order,
      mapGet (payOrder (run Store.init [.create [1], .create [2]]) 1).1.orders 1 = some o' ∧
      o'.ID = 1 ∧ o'.Items = [{ ID := 1, Name := "Nasi Goreng", Price := 25000 }] ∧
      o'.Total = 25000) ∧
    mapGet (createOrder (run Store.init [.create [1], .create [2]]) [3]).1.orders 2 =
      some { ID := 2, Items := [{ ID := 2, Name := "Mie Goreng", Price := 20000 }],
             Total := 20000, Status := "Diproses" } :=
  ⟨(frame_conditions.1 (run Store.init [.create [1], .create [2]]) 1 2 [3] "Selesai"
      (by decide)).1,
   (frame_conditions.1 (run Store.init [.create [1], .create [2]]) 1 2 [3] "Selesai"
      (by decide)).2.1,
   (frame_conditions.1 (run Store.init [.create [1], .create [2]]) 1 2 [3] "Selesai"
      (by decide)).2.2,
   frame_conditions.2.2.2.1 (run Store.init [.create [1], .create [2]]) 1
     { ID := 1, Items := [{ ID := 1, Name := "Nasi Goreng", Price := 25000 }],
       Total := 25000, Status := "Diproses" } (by decide) (by decide),
   frame_conditions.2.2.2.2.2.2 [.create [1], .create [2]] 2 [3]
     { ID := 2, Items := [{ ID := 2, Name := "Mie Goreng", Price := 20000 }],
       Total := 20000, Status := "Diproses" } (by decide)⟩

/-! ## The registry keys -/

theorem found_iff (ops : List Op) (k : Int) :
    (∃ o : Order, mapGet (run Store.init ops).orders k = some o) ↔
      1 ≤ k ∧ k ≤ (countCreates ops : Int) := by
  obtain ⟨-, h2, -⟩ := wellFormed_reachable ops
  rw [← mem_firstKeys, ← h2]
  constructor
  · rintro ⟨o, h⟩
    by_contra hn
    rw [← mapGet_eq_none_iff] at hn
    rw [hn] at h
    exact Option.noConfusion h
  · intro h
    cases hk : mapGet (run Store.init ops).orders k with
    | none =>
      rw [mapGet_eq_none_iff] at hk
      exact absurd h hk
    | some o => exact ⟨o, rfl⟩

theorem absent_iff (ops : List Op) (k : Int) :
    mapGet (run Store.init ops).orders k = none ↔ ¬ (1 ≤ k ∧ k ≤ (countCreates ops : Int)) := by
  rw [← found_iff]
  cases hk : mapGet (run Store.init ops).orders k with
  | none => simp
  | some o => simp

theorem payOrder_notFound_iff (s : Store) (k : Int) :
    (payOrder s k).2 = NotFound ↔ mapGet s.orders k = none := by
  cases hk : mapGet s.orders k with
  | none =>
    rw [payOrder_absent s k hk]
    simp
  | some o =>
    by_cases hst : o.Status = StatusProses
    · rw [payOrder_proses s k o hk hst]
      simp [PaymentConfirmed, NotFound]
    · rw [payOrder_other s k o hk hst]
      simp [InvalidState, NotFound, StatusBadRequest, StatusNotFound]

theorem addItemToOrder_notFound_iff (s : Store) (k : Int) (ids : List Int) :
    (addItemToOrder s k ids).2 = NotFound ↔ mapGet s.orders k = none := by
  cases hk : mapGet s.orders k with
  | none =>
    rw [addItemToOrder_absent s k ids hk]
    simp
  | some o =>
    rw [addItemToOrder_eq s k ids o hk]
    simp [NotFound]

theorem updateOrderStatus_notFound_iff (s : Store) (k : Int) (st : OrderStatus) :
    (updateOrderStatus s k st).2 = NotFound ↔ mapGet s.orders k = none := by
  cases hk : mapGet s.orders k with
  | none =>
    rw [updateOrderStatus_absent s k st hk]
    simp
  | some o =>
    rw [updateOrderStatus_eq s k st o hk]
    simp [NotFound]

/-- C18: in every store reached from the initial store (empty registry, counter
1) the counter is one more than the number of CreateOrder calls made, the
registry keys are pairwise distinct and are exactly the ids from 1 to the
counter minus 1, and every order is stored under its own id; so AddItems,
PayOrder and SetStatus find an order id (do not answer NotFound) if and only if
it lies between 1 and the number of CreateOrder calls made so far. -/
theorem registry_wellFormed (ops : List Op) :
    Store.init = { orders := [], orderID := 1 } ∧
    (run Store.init ops).orderID = (countCreates ops : Int) + 1 ∧
    ((run Store.init ops).orders.map Prod.fst).Nodup ∧
    (∀ k : Int, (∃ o : Order, mapGet (run Store.init ops).orders k = some o) ↔
      1 ≤ k ∧ k ≤ (run Store.init ops).orderID - 1) ∧
    (∀ (k : Int) (o : Order), mapGet (run Store.init ops).orders k = some o → o.ID = k) ∧
    (∀ (k : Int) (ids : List Int),
      (addItemToOrder (run Store.init ops) k ids).2 ≠ NotFound ↔
        1 ≤ k ∧ k ≤ (countCreates ops : Int)) ∧
    (∀ k : Int,
      (payOrder (run Store.init ops) k).2 ≠ NotFound ↔
        1 ≤ k ∧ k ≤ (countCreates ops : Int)) ∧
    (∀ (k : Int) (st : OrderStatus),
      (updateOrderStatus (run Store.init ops) k st).2 ≠ NotFound ↔
        1 ≤ k ∧ k ≤ (countCreates ops : Int)) := by
  obtain ⟨h1, h2, h3⟩ := wellFormed_reachable ops
  refine ⟨rfl, h1, ?_, ?_, ?_, ?_, ?_, ?_⟩
  · rw [h2]
    exact firstKeys_nodup _
  · intro k
    rw [found_iff, h1]
    constructor <;> rintro ⟨ha, hb⟩ <;> exact ⟨ha, by omega⟩
  · intro k o h
    exact h3 _ (mem_of_mapGet h)
  · intro k ids
    rw [Ne, addItemToOrder_notFound_iff, absent_iff, not_not]
  · intro k
    rw [Ne, payOrder_notFound_iff, absent_iff, not_not]
  · intro k st
    rw [Ne, updateOrderStatus_notFound_iff, absent_iff, not_not]

/-- C18 at a concrete call sequence with two creations: order 2 is found and
stored under its own id, order 3 is not found. -/
theorem registry_wellFormed_witness :
    (∃ o : Order,
      mapGet (run Store.init [.create [1], .pay 5, .create [], .setStatus 1 "x"]).orders 2
        = some o) ∧
    ({ ID := 2, Items := [], Total := 0, Status := "Diproses" } : Order).ID = 2 ∧
    (payOrder (run Store.init [.create [1], .pay 5, .create [], .setStatus 1 "x"]) 3).2
      = NotFound :=
  ⟨((registry_wellFormed [.create [1], .pay 5, .create [], .setStatus 1 "x"]).2.2.2.1 2).mpr
     (by decide),
   (registry_wellFormed [.create [1], .pay 5, .create [], .setStatus 1 "x"]).2.2.2.2.1 2
     { ID := 2, Items := [], Total := 0, Status := "Diproses" } (by decide),
   by decide⟩

/-! ## The payment guard and status changes -/

/-- C19: for every sequence of item ids, starting from the initial store,
CreateOrder(ids), PayOrder(1), SetStatus(1, "Diproses"), PayOrder(1) all
succeed: PayOrder succeeds twice on order 1. -/
theorem pay_guard_bypass (ids : List Int) :
    (∃ o : Order, (createOrder Store.init ids).2 = .order o ∧ o.ID = 1) ∧
    (payOrder (run Store.init [.create ids]) 1).2 = PaymentConfirmed ∧
    (∃ o : Order,
      (updateOrderStatus (run Store.init [.create ids, .pay 1]) 1 "Diproses").2 = .order o ∧
      o.ID = 1 ∧ o.Status = StatusProses) ∧
    (payOrder (run Store.init [.create ids, .pay 1, .setStatus 1 "Diproses"]) 1).2 =
      PaymentConfirmed := by
  refine ⟨⟨_, by rw [createOrder_eq], rfl⟩, ?_, ?_, ?_⟩
  · simp [run, step, createOrder_eq, Store.init, mapSet, mapGet, payOrder, PaymentConfirmed,
      StatusProses]
  · simp [run, step, createOrder_eq, Store.init, mapSet, mapGet, payOrder, updateOrderStatus,
      StatusProses]
  · simp [run, step, createOrder_eq, Store.init, mapSet, mapGet, payOrder, updateOrderStatus,
      PaymentConfirmed, StatusProses]

/-! ## Composition of additions -/

/-- C20: AddItems(o, a) followed by AddItems(o, b) gives the same store and the
same response as the single call AddItems(o, a ++ b); and CreateOrder(a)
followed by AddItems on the new order with b gives the same store and returns
the same order (id, items, total and status) as CreateOrder(a ++ b) from the
same starting store. -/
theorem addItems_compose (s : Store) (k : Int) (a b : List Int) :
    addItemToOrder (addItemToOrder s k a).1 k b = addItemToOrder s k (a ++ b) ∧
    addItemToOrder (createOrder s a).1 s.orderID b = createOrder s (a ++ b) := by
  constructor
  · cases hk : mapGet s.orders k with
    | none =>
      rw [addItemToOrder_absent s k a hk, addItemToOrder_absent s k b hk,
        addItemToOrder_absent s k (a ++ b) hk]
    | some o =>
      rw [addItemToOrder_eq s k a o hk, addItemToOrder_eq s k (a ++ b) o hk,
        addItemToOrder_eq _ k b _ (mapGet_mapSet_self _ _ _)]
      simp [mapSet_mapSet, resolve_append, sumPrices_append, Nat.add_assoc]
  · rw [createOrder_eq, createOrder_eq,
      addItemToOrder_eq _ s.orderID b _ (mapGet_mapSet_self _ _ _)]
    simp [mapSet_mapSet, resolve_append, sumPrices_append]

end OrderStore
